import Mathlib

/-!
# sunnyboy_exporter: the scrape-and-translate pipeline

A shallow embedding of `sunnyboy.go` and of the start-up path of `main.go`.

* Go maps are association lists (`GoMap`): the list order stands for the
  iteration order of one `range` loop, indexing an absent key gives the zero
  value of the element type and never inserts.
* The libraries the exporter calls (`net/http`, `io/ioutil`, `encoding/json`)
  are the fields of `Env`: what they answer is an input of every function here.
* A `*prometheus.GaugeVec` is the list of its children, keyed by the label
  values; `prometheus.Gauge` is its descriptor and its current value.
* The channel `c` handed to `Collect` is the list of metrics sent on it.
-/

namespace SunnyBoy

/-! ## Go values -/

/-- Go `error` values that are not nil (`Option error` is a Go `error`). -/
abbrev error := String

/-- The `float64` values `encoding/json` can produce: finite, hence rational. The
exporter only copies them. -/
abbrev float64 := ℚ

/-- The content of a `[]byte` holding a response body. -/
abbrev Bytes := String

/-- Go `map[string]V`. -/
abbrev GoMap (V : Type) := List (String × V)

/-- Go `m[k]`: the element stored under `k`, or the zero value of `V`. -/
def GoMap.index {V : Type} [Inhabited V] (m : GoMap V) (k : String) : V :=
  (m.lookup k).getD default

/-- The keys of a map, in iteration order. -/
def GoMap.keys {V : Type} (m : GoMap V) : List String :=
  m.map Prod.fst

/-- Go `fmt.Sprintf("%d", n)` for an `int`. -/
def Sprintf_d : Int → String
  | Int.ofNat m => Nat.repr m
  | Int.negSucc m => "-" ++ Nat.repr (m + 1)

/-- A Go `interface{}` as `encoding/json` fills it: the dynamic type and the value. -/
inductive Iface where
  | nil : Iface
  | bool (b : Bool) : Iface
  | float64 (f : float64) : Iface
  | string (s : String) : Iface
  | slice (xs : List Iface) : Iface
  | map (kvs : List (String × Iface)) : Iface

/-! ## Types of `sunnyboy.go` -/

structure SunnyBoyOpts where
  SkipVerifyCert : Bool
  URL : String
  deriving DecidableEq, Repr

structure metadata where
  TagIdEvtMsg : Int
  Unit : Int
  deriving DecidableEq, Repr

instance : Inhabited metadata := ⟨⟨0, 0⟩⟩

structure values where
  Val : Iface

abbrev sensorResult := GoMap (List values)

abbrev deviceResult := GoMap sensorResult

structure results where
  Result : GoMap deviceResult

instance : Inhabited results := ⟨⟨[]⟩⟩

/-! ## Prometheus client -/

/-- One metric sent on the collect channel. -/
structure Metric where
  name : String
  labels : List (String × String)
  value : float64
  deriving DecidableEq, Repr

/-- A `prometheus.Gauge`. -/
structure Gauge where
  Name : String
  Help : String
  val : float64
  deriving DecidableEq, Repr

def Gauge.Set (g : Gauge) (v : float64) : Gauge :=
  { g with val := v }

def Gauge.Collect (g : Gauge) : List Metric :=
  [{ name := g.Name, labels := [], value := g.val }]

/-- A `*prometheus.GaugeVec`: one child per tuple of label values. -/
structure GaugeVec where
  Name : String
  Help : String
  labelNames : List String
  children : List (List String × float64)
  deriving DecidableEq, Repr

/-- Store `v` under `lvs`: the child is created when absent, overwritten otherwise. -/
def setChild (lvs : List String) (v : float64) :
    List (List String × float64) → List (List String × float64)
  | [] => [(lvs, v)]
  | (k, w) :: rest => if k = lvs then (k, v) :: rest else (k, w) :: setChild lvs v rest

/-- Go `g.WithLabelValues(lvs...).Set(v)`. The only call site passes as many values
as `gauge` declares label names. -/
def GaugeVec.WithLabelValues_Set (g : GaugeVec) (lvs : List String) (v : float64) : GaugeVec :=
  { g with children := setChild lvs v g.children }

/-- Go `g.Collect(c)`: one metric per child, labelled name by name. -/
def GaugeVec.Collect (g : GaugeVec) : List Metric :=
  g.children.map fun ch =>
    { name := g.Name, labels := g.labelNames.zip ch.1, value := ch.2 }

/-! ## Libraries -/

structure Request where
  method : String
  url : String
  deriving DecidableEq, Repr

structure TLSConfig where
  InsecureSkipVerify : Bool
  deriving DecidableEq, Repr

structure Transport where
  TLSClientConfig : TLSConfig
  deriving DecidableEq, Repr

structure Client where
  Transport : Transport
  deriving DecidableEq, Repr

/-- A response body: what reading it to the end gives. -/
structure ReadCloser where
  data : Bytes
  err : Option error
  deriving DecidableEq, Repr

structure Response where
  StatusCode : Nat
  Body : ReadCloser
  deriving DecidableEq, Repr

/-- Go `ioutil.ReadAll`. -/
def ReadAll (b : ReadCloser) : Bytes × Option error :=
  (b.data, b.err)

/-- The world outside the exporter: URL parsing, the device behind the HTTP client,
the JSON decoder for each target type (`json.Unmarshal(data, &v)` takes the old `v`
and gives the new one), and the listener. -/
structure Env where
  urlParse : String → Option error
  Do : Client → Request → Except error Response
  Unmarshal_results : Bytes → results → results × Option error
  Unmarshal_locale : Bytes → GoMap String → GoMap String × Option error
  Unmarshal_metadatas : Bytes → GoMap metadata → GoMap metadata × Option error
  ListenAndServe : String → Option error

/-- Go `http.NewRequest(method, url, nil)` for a valid method. -/
def NewRequest (env : Env) (method url : String) : Except error Request :=
  match env.urlParse url with
  | some e => .error e
  | none => .ok { method := method, url := url }

/-! ## The exporter -/

/-- A `log.Logger`, by name. -/
abbrev Logger := String

structure SunnyBoyExporter where
  url : String
  insecure : Bool
  l : Logger
  locale : GoMap String
  metadatas : GoMap metadata
  value : Option GaugeVec
  up : Option Gauge
  deriving DecidableEq, Repr

/-- Go `(*SunnyBoyExporter).gauge`. -/
def SunnyBoyExporter.gauge (_s : SunnyBoyExporter) : GaugeVec :=
  { Name := "sunny_boy_value"
    Help := "Value from the Sunnyboy API"
    labelNames := ["device", "sensor", "result", "id", "name"]
    children := [] }

/-- Go `(*SunnyBoyExporter).client`. -/
def SunnyBoyExporter.client (_s : SunnyBoyExporter) : Client :=
  { Transport := { TLSClientConfig := { InsecureSkipVerify := true } } }

/-- The `for i, v := range vals` loop of `Collect`. -/
def rangeVals (s : SunnyBoyExporter) (dev sens valid : String) (vals : List values)
    (g : GaugeVec) : GaugeVec :=
  vals.enum.foldl (fun g iv =>
    match iv.2.Val with
    | Iface.float64 metric =>
      let metadata := s.metadatas.index sens
      let name := s.locale.index (Sprintf_d metadata.TagIdEvtMsg)
      g.WithLabelValues_Set [dev, valid, Sprintf_d iv.1, sens, name] metric
    | _ => g) g

/-- The `for valid, vals := range sensres` loop of `Collect`. -/
def rangeSensres (s : SunnyBoyExporter) (dev sens : String) (sensres : sensorResult)
    (g : GaugeVec) : GaugeVec :=
  sensres.foldl (fun g kv => rangeVals s dev sens kv.1 kv.2 g) g

/-- The `for sens, sensres := range res` loop of `Collect`. -/
def rangeRes (s : SunnyBoyExporter) (dev : String) (res : deviceResult)
    (g : GaugeVec) : GaugeVec :=
  res.foldl (fun g kv => rangeSensres s dev kv.1 kv.2 g) g

/-- The `for dev, res := range r.Result` loop of `Collect`. -/
def rangeResult (s : SunnyBoyExporter) (r : results) (g : GaugeVec) : GaugeVec :=
  r.Result.foldl (fun g kv => rangeRes s kv.1 kv.2 g) g

/-- What one call of `Collect` did. -/
structure Collected where
  /-- the exporter afterwards -/
  s : SunnyBoyExporter
  /-- the metrics sent on `c`, in order -/
  c : List Metric
  /-- the lines written with `s.l.Log` -/
  log : List (Logger × String × error)
  /-- the requests handed to the HTTP client -/
  sent : List Request
  /-- `s.up` was nil: the deferred function panicked -/
  panicked : Bool
  deriving DecidableEq, Repr

/-- The deferred function of `Collect`, run with the final `err`. -/
def Collect.deferred (s : SunnyBoyExporter) (err : Option error) (c : List Metric)
    (sent : List Request) : Collected :=
  match s.up with
  | none => { s := s, c := c, log := [], sent := sent, panicked := true }
  | some up =>
    match err with
    | some e =>
      { s := { s with up := some (up.Set 0) }
        c := c ++ (up.Set 0).Collect
        log := [(s.l, "err", e)]
        sent := sent
        panicked := false }
    | none =>
      { s := { s with up := some (up.Set 1) }
        c := c ++ (up.Set 1).Collect
        log := []
        sent := sent
        panicked := false }

/-- Go `(*SunnyBoyExporter).Collect`. -/
def SunnyBoyExporter.Collect (env : Env) (s : SunnyBoyExporter) : Collected :=
  let g := s.gauge
  match NewRequest env "GET" (s.url ++ "/dyn/getDashValues.json") with
  | .error e => Collect.deferred s (some e) [] []
  | .ok req =>
    match env.Do s.client req with
    | .error e => Collect.deferred s (some e) [] [req]
    | .ok resp =>
      match ReadAll resp.Body with
      | (_, some e) => Collect.deferred s (some e) [] [req]
      | (body, none) =>
        match env.Unmarshal_results body default with
        | (_, some e) => Collect.deferred s (some e) [] [req]
        | (r, none) =>
          let g := rangeResult s r g
          Collect.deferred s none g.Collect [req]

/-- What an initialisation step did. -/
structure Inited where
  /-- the exporter afterwards -/
  s : SunnyBoyExporter
  /-- the returned `error` -/
  err : Option error
  /-- the requests handed to the HTTP client -/
  sent : List Request
  deriving DecidableEq, Repr

/-- Go `(*SunnyBoyExporter).initLocale`. -/
def SunnyBoyExporter.initLocale (env : Env) (s : SunnyBoyExporter) : Inited :=
  match NewRequest env "GET" (s.url ++ "/data/l10n/en-US.json") with
  | .error e => { s := s, err := some e, sent := [] }
  | .ok req =>
    match env.Do s.client req with
    | .error e => { s := s, err := some e, sent := [req] }
    | .ok resp =>
      match ReadAll resp.Body with
      | (_, some e) => { s := s, err := some e, sent := [req] }
      | (body, none) =>
        match env.Unmarshal_locale body s.locale with
        | (m, some e) => { s := { s with locale := m }, err := some e, sent := [req] }
        | (m, none) => { s := { s with locale := m }, err := none, sent := [req] }

/-- Go `(*SunnyBoyExporter).initMedatatas`. -/
def SunnyBoyExporter.initMedatatas (env : Env) (s : SunnyBoyExporter) : Inited :=
  match NewRequest env "GET" (s.url ++ "/data/ObjectMetadata_Istl.json") with
  | .error e => { s := s, err := some e, sent := [] }
  | .ok req =>
    match env.Do s.client req with
    | .error e => { s := s, err := some e, sent := [req] }
    | .ok resp =>
      match ReadAll resp.Body with
      | (_, some e) => { s := s, err := some e, sent := [req] }
      | (body, none) =>
        match env.Unmarshal_metadatas body s.metadatas with
        | (m, some e) => { s := { s with metadatas := m }, err := some e, sent := [req] }
        | (m, none) => { s := { s with metadatas := m }, err := none, sent := [req] }

/-- Go `(*SunnyBoyExporter).init`. -/
def SunnyBoyExporter.init (env : Env) (s : SunnyBoyExporter) : Inited :=
  let r1 := s.initLocale env
  match r1.err with
  | some e => { s := r1.s, err := some e, sent := r1.sent }
  | none =>
    let r2 := r1.s.initMedatatas env
    match r2.err with
    | some e => { s := r2.s, err := some e, sent := r1.sent ++ r2.sent }
    | none =>
      let up : Gauge :=
        { Name := "sunny_boy_up", Help := "Is sunny boy scrape successful", val := 0 }
      { s := { r2.s with up := some (up.Set 0) }, err := none, sent := r1.sent ++ r2.sent }

/-- Go `NewExporter`: the collector and the error of `init`. -/
def NewExporter (env : Env) (o : SunnyBoyOpts) (l : Logger) : Inited :=
  let s : SunnyBoyExporter :=
    { url := o.URL
      insecure := o.SkipVerifyCert
      l := l
      locale := []
      metadatas := []
      value := none
      up := none }
  s.init env

/-! ## `main.go` -/

/-- What the process did from `NewExporter` on. -/
structure Process where
  /-- the status passed to `os.Exit`, if it was called -/
  exit : Option Nat
  /-- the collector handed to `prometheus.MustRegister` -/
  registered : Option SunnyBoyExporter
  /-- the address `http.ListenAndServe` was called with -/
  listening : Option String
  /-- the requests handed to the HTTP client -/
  sent : List Request
  /-- the lines logged at error level -/
  errors : List (String × error)
  deriving DecidableEq, Repr

/-- Go `main`, after the flags are parsed into `listenAddress` and `opts`. -/
def main (env : Env) (listenAddress : String) (opts : SunnyBoyOpts) (logger : Logger) :
    Process :=
  let r := NewExporter env opts logger
  match r.err with
  | some err =>
    { exit := some 1
      registered := none
      listening := none
      sent := r.sent
      errors := [("Error creating the exporter", err)] }
  | none =>
    match env.ListenAndServe listenAddress with
    | some err =>
      { exit := some 1
        registered := some r.s
        listening := some listenAddress
        sent := r.sent
        errors := [("Error starting HTTP server", err)] }
    | none =>
      { exit := none
        registered := some r.s
        listening := some listenAddress
        sent := r.sent
        errors := [] }

/-! ## Reading a `Collected` -/

/-- The `sunny_boy_value` samples among the metrics sent. -/
def Collected.valueSamples (r : Collected) : List Metric :=
  r.c.filter fun m => m.name = "sunny_boy_value"

/-- The `sunny_boy_up` samples among the metrics sent. -/
def Collected.upSamples (r : Collected) : List Metric :=
  r.c.filter fun m => m.name = "sunny_boy_up"

/-- Read a decimal numeral back into the number it writes. -/
def atoi (cs : List Char) (acc : Nat) : Nat :=
  cs.foldl (fun a c => 10 * a + (c.toNat - 48)) acc

/-! ## Reading the loops of `Collect` -/

/-- The type assertion `v.Val.(float64)` succeeds. -/
def values.isNumeric (v : values) : Bool :=
  match v.Val with
  | Iface.float64 _ => true
  | _ => false

/-- The number of value entries of a decoded dashboard whose `val` is a number, over all
devices, sensors, result kinds and positions. -/
def numericEntries (r : results) : Nat :=
  (r.Result.map fun d =>
    (d.2.map fun sn =>
      (sn.2.map fun k => (k.2.filter values.isNumeric).length).sum).sum).sum

/-- A Go map holds each key once, at every level of a decoded dashboard. -/
def results.uniqueKeys (r : results) : Prop :=
  r.Result.keys.Nodup ∧
    ∀ d ∈ r.Result, d.2.keys.Nodup ∧ ∀ sn ∈ d.2, sn.2.keys.Nodup

instance (r : results) : Decidable r.uniqueKeys := by
  unfold results.uniqueKeys; infer_instance

/-- A run of `WithLabelValues(...).Set(...)` calls, in order. -/
def setAll (g : GaugeVec) (us : List (List String × float64)) : GaugeVec :=
  us.foldl (fun g u => g.WithLabelValues_Set u.1 u.2) g

/-- The display name `Collect` resolves for a sensor. -/
def displayName (s : SunnyBoyExporter) (sens : String) : String :=
  s.locale.index (Sprintf_d (s.metadatas.index sens).TagIdEvtMsg)

/-- The label values and the value `Collect` sets for the entry at position `i`. -/
def entrySet (s : SunnyBoyExporter) (dev sens valid : String) (iv : Nat × values) :
    Option (List String × float64) :=
  match iv.2.Val with
  | Iface.float64 metric => some ([dev, valid, Sprintf_d iv.1, sens, displayName s sens], metric)
  | _ => none

/-- The sets of one value list, in order. -/
def valsSets (s : SunnyBoyExporter) (dev sens valid : String) (vals : List values) :
    List (List String × float64) :=
  vals.enum.filterMap (entrySet s dev sens valid)

/-- The sets of one sensor, in order. -/
def sensresSets (s : SunnyBoyExporter) (dev sens : String) (sensres : sensorResult) :
    List (List String × float64) :=
  sensres.flatMap fun kv => valsSets s dev sens kv.1 kv.2

/-- The sets of one device, in order. -/
def resSets (s : SunnyBoyExporter) (dev : String) (res : deviceResult) :
    List (List String × float64) :=
  res.flatMap fun kv => sensresSets s dev kv.1 kv.2

/-- The sets of a whole dashboard, in order. -/
def resultSets (s : SunnyBoyExporter) (r : results) : List (List String × float64) :=
  r.Result.flatMap fun kv => resSets s kv.1 kv.2

/-- The metric `g.Collect` sends for a child of the value gauge. -/
def valueMetric (ch : List String × float64) : Metric :=
  { name := "sunny_boy_value"
    labels := ["device", "sensor", "result", "id", "name"].zip ch.1
    value := ch.2 }

/-! ## What the claims speak of -/

/-- The dashboard of one scrape: request construction, the HTTP fetch, the body read and
the JSON decode, each of which can fail. -/
def dashboard (env : Env) (s : SunnyBoyExporter) : Except error results :=
  match env.urlParse (s.url ++ "/dyn/getDashValues.json") with
  | some e => .error e
  | none =>
    match env.Do s.client { method := "GET", url := s.url ++ "/dyn/getDashValues.json" } with
    | .error e => .error e
    | .ok resp =>
      match resp.Body.err with
      | some e => .error e
      | none =>
        match (env.Unmarshal_results resp.Body.data default).2 with
        | some e => .error e
        | none => .ok (env.Unmarshal_results resp.Body.data default).1

/-- The exporter came out of a successful `init`: its `up` gauge exists and is the
`sunny_boy_up` gauge. Only such exporters are registered by `main`. -/
def SunnyBoyExporter.Ready (s : SunnyBoyExporter) : Prop :=
  s.up.map Gauge.Name = some "sunny_boy_up"

instance (s : SunnyBoyExporter) : Decidable s.Ready := by
  unfold SunnyBoyExporter.Ready; infer_instance

/-- The same world, except that every response carries the status code `code`. -/
def Env.withStatus (env : Env) (code : Nat) : Env :=
  { env with Do := fun c req => (env.Do c req).map fun resp => { resp with StatusCode := code } }

/-- Loading a reference table from `url` fails: request construction, the network fetch,
the body read or the JSON decode gives an error. -/
def loadFails (env : Env) (client : Client) (url : String) (decodeErr : Bytes → Option error) :
    Bool :=
  (env.urlParse url).isSome ||
    match env.Do client { method := "GET", url := url } with
    | .error _ => true
    | .ok resp => resp.Body.err.isSome || (decodeErr resp.Body.data).isSome

/-! ## A device for the examples -/

/-- The locale table of the example device. -/
def localeText : Bytes := "\x7b\"7021\": \"Voltage\"\x7d"

/-- The metadata table of the example device. -/
def metadataText : Bytes :=
  "\x7b\"6100_40263F00\": \x7b\"TagIdEvtMsg\": 7021, \"Unit\": 0\x7d\x7d"

/-- A dashboard with one numeric value. -/
def voltageText : Bytes :=
  "\x7b\"result\": \x7b\"dev1\": \x7b\"6100_40263F00\": \x7b\"1\": [\x7b\"val\": 235.4\x7d]\x7d\x7d\x7d\x7d"

/-- The decoded form of `voltageText`. -/
def voltageResults : results :=
  ⟨[("dev1", [("6100_40263F00", [("1", [⟨Iface.float64 235.4⟩])])])]⟩

/-- A dashboard with one value, which is a string. -/
def naText : Bytes :=
  "\x7b\"result\": \x7b\"d1\": \x7b\"s1\": \x7b\"r1\": [\x7b\"val\": \"n/a\"\x7d]\x7d\x7d\x7d\x7d"

/-- The decoded form of `naText`. -/
def naResults : results :=
  ⟨[("d1", [("s1", [("r1", [⟨Iface.string "n/a"⟩])])])]⟩

/-- A device at `https://sunnyboy` that serves the two reference tables and `dash` as
its dashboard; the decoders know the texts above and reject everything else. -/
def device (dash : Bytes) : Env where
  urlParse := fun _ => none
  Do := fun _ req =>
    if req.url = "https://sunnyboy/data/l10n/en-US.json" then
      .ok { StatusCode := 200, Body := { data := localeText, err := none } }
    else if req.url = "https://sunnyboy/data/ObjectMetadata_Istl.json" then
      .ok { StatusCode := 200, Body := { data := metadataText, err := none } }
    else if req.url = "https://sunnyboy/dyn/getDashValues.json" then
      .ok { StatusCode := 200, Body := { data := dash, err := none } }
    else
      .ok { StatusCode := 404, Body := { data := "", err := none } }
  Unmarshal_results := fun data old =>
    if data = voltageText then (voltageResults, none)
    else if data = naText then (naResults, none)
    else (old, some "unexpected end of JSON input")
  Unmarshal_locale := fun data old =>
    if data = localeText then ([("7021", "Voltage")], none)
    else (old, some "unexpected end of JSON input")
  Unmarshal_metadatas := fun data old =>
    if data = metadataText then ([("6100_40263F00", { TagIdEvtMsg := 7021, Unit := 0 })], none)
    else (old, some "unexpected end of JSON input")
  ListenAndServe := fun _ => none

/-- The same device, switched off: every round trip fails. -/
def deviceDown : Env :=
  { device "" with Do := fun _ _ => .error "connection refused" }

/-- The exporter `NewExporter` builds against `device`. -/
def readyExporter : SunnyBoyExporter :=
  { url := "https://sunnyboy"
    insecure := true
    l := "logger"
    locale := [("7021", "Voltage")]
    metadatas := [("6100_40263F00", { TagIdEvtMsg := 7021, Unit := 0 })]
    value := none
    up := some { Name := "sunny_boy_up", Help := "Is sunny boy scrape successful", val := 0 } }

/-- An exporter whose metadata table knows no sensor and whose locale table names tag 0. -/
def zeroTagExporter : SunnyBoyExporter :=
  { readyExporter with locale := [("0", "Zero")], metadatas := [] }

/-- An exporter whose metadata table knows no sensor and whose locale table has no tag 0. -/
def noMetadataExporter : SunnyBoyExporter :=
  { readyExporter with metadatas := [] }

/-! # Theorems -/

theorem setAll_nil (g : GaugeVec) : setAll g [] = g := rfl

theorem setAll_append (g : GaugeVec) (us vs : List (List String × float64)) :
    setAll g (us ++ vs) = setAll (setAll g us) vs := by
  simp [setAll, List.foldl_append]

theorem rangeVals_eq (s : SunnyBoyExporter) (dev sens valid : String) (vals : List values)
    (g : GaugeVec) : rangeVals s dev sens valid vals g = setAll g (valsSets s dev sens valid vals) := by
  unfold rangeVals valsSets
  generalize vals.enum = l
  induction l generalizing g with
  | nil => rfl
  | cons iv l ih =>
    rw [List.foldl_cons, ih]
    cases hv : iv.2.Val <;> simp [List.filterMap_cons, entrySet, hv, setAll, displayName]

theorem rangeSensres_eq (s : SunnyBoyExporter) (dev sens : String) (sensres : sensorResult)
    (g : GaugeVec) : rangeSensres s dev sens sensres g = setAll g (sensresSets s dev sens sensres) := by
  unfold rangeSensres sensresSets
  induction sensres generalizing g with
  | nil => rfl
  | cons kv l ih =>
    rw [List.foldl_cons, ih, List.flatMap_cons, setAll_append, rangeVals_eq]

theorem rangeRes_eq (s : SunnyBoyExporter) (dev : String) (res : deviceResult)
    (g : GaugeVec) : rangeRes s dev res g = setAll g (resSets s dev res) := by
  unfold rangeRes resSets
  induction res generalizing g with
  | nil => rfl
  | cons kv l ih =>
    rw [List.foldl_cons, ih, List.flatMap_cons, setAll_append, rangeSensres_eq]

theorem rangeResult_eq (s : SunnyBoyExporter) (r : results) (g : GaugeVec) :
    rangeResult s r g = setAll g (resultSets s r) := by
  unfold rangeResult resultSets
  generalize r.Result = m
  induction m generalizing g with
  | nil => rfl
  | cons kv l ih =>
    rw [List.foldl_cons, ih, List.flatMap_cons, setAll_append, rangeRes_eq]

/-! ### Setting fresh children appends them -/

theorem setChild_fresh (lvs : List String) (v : float64) (cs : List (List String × float64))
    (h : lvs ∉ cs.map Prod.fst) : setChild lvs v cs = cs ++ [(lvs, v)] := by
  induction cs with
  | nil => rfl
  | cons c cs ih =>
    obtain ⟨k, w⟩ := c
    simp only [List.map_cons, List.mem_cons, not_or] at h
    have hk : ¬ k = lvs := fun e => h.1 e.symm
    simp [setChild, hk, ih h.2]

theorem setAll_fresh (g : GaugeVec) (us : List (List String × float64))
    (hn : (us.map Prod.fst).Nodup)
    (hd : ∀ k ∈ us.map Prod.fst, k ∉ g.children.map Prod.fst) :
    setAll g us = { g with children := g.children ++ us } := by
  induction us generalizing g with
  | nil => simp [setAll]
  | cons u us ih =>
    have hu : u.1 ∉ g.children.map Prod.fst := hd u.1 (by simp)
    rw [List.map_cons, List.nodup_cons] at hn
    have hstep : setAll g (u :: us) = setAll (g.WithLabelValues_Set u.1 u.2) us := rfl
    rw [hstep, ih _ hn.2]
    · simp [GaugeVec.WithLabelValues_Set, setChild_fresh _ _ _ hu]
    · intro k hk
      simp only [GaugeVec.WithLabelValues_Set, setChild_fresh _ _ _ hu, List.map_append,
        List.map_cons, List.map_nil, List.mem_append, List.mem_singleton, not_or]
      refine ⟨hd k (by simp [List.mem_map] at hk ⊢; exact Or.inr hk), ?_⟩
      intro e
      exact hn.1 (e ▸ hk)

/-! ### Decimal formatting is injective -/

theorem digitChar_toNat (k : Nat) (h : k < 10) : (Nat.digitChar k).toNat - 48 = k := by
  interval_cases k <;> rfl

theorem atoi_toDigitsCore (fuel : Nat) : ∀ (n : Nat) (ds : List Char), n < fuel →
    atoi (Nat.toDigitsCore 10 fuel n ds) 0 = atoi ds n := by
  induction fuel with
  | zero => intro n ds h; omega
  | succ fuel ih =>
    intro n ds h
    have hd : (Nat.digitChar (n % 10)).toNat - 48 = n % 10 :=
      digitChar_toNat _ (Nat.mod_lt _ (by decide))
    by_cases h0 : n / 10 = 0
    · have hn : n % 10 = n := by omega
      simp only [Nat.toDigitsCore, h0, if_true, atoi, List.foldl_cons, hd]
      simp [hn]
    · have hlt : n / 10 < fuel := by omega
      simp only [Nat.toDigitsCore, h0, if_false]
      rw [ih (n / 10) _ hlt]
      simp only [atoi, List.foldl_cons, hd]
      congr 1
      omega

theorem atoi_repr (n : Nat) : atoi (Nat.repr n).data 0 = n := by
  simp only [Nat.repr, Nat.toDigits, List.asString]
  exact atoi_toDigitsCore (n + 1) n [] (Nat.lt_succ_self n)

theorem Sprintf_d_natCast_injective (a b : Nat) (h : Sprintf_d (a : Int) = Sprintf_d (b : Int)) :
    a = b := by
  have h2 : Nat.repr a = Nat.repr b := h
  have := congrArg (fun s => atoi s.data 0) h2
  simpa [atoi_repr] using this

/-! ### The sets of one scrape have pairwise different label values -/

theorem nodup_flatMap_keyed {α β κ : Type} (l : List α) (f : α → List β) (key : α → κ)
    (proj : β → κ) (hproj : ∀ a ∈ l, ∀ b ∈ f a, proj b = key a)
    (hk : (l.map key).Nodup) (hf : ∀ a ∈ l, (f a).Nodup) : (l.flatMap f).Nodup := by
  rw [List.nodup_flatMap]
  refine ⟨hf, ?_⟩
  have hp : l.Pairwise (fun a b => key a ≠ key b) := List.pairwise_map.1 hk
  refine hp.imp_of_mem ?_
  intro a b ha hb hne
  show List.Disjoint (f a) (f b)
  intro x hxa hxb
  exact hne ((hproj a ha x hxa).symm.trans (hproj b hb x hxb))

theorem valsSets_keys (s : SunnyBoyExporter) (dev sens valid : String) (vals : List values) :
    (valsSets s dev sens valid vals).map Prod.fst =
      ((vals.enum.filter fun iv => iv.2.isNumeric).map fun iv =>
        [dev, valid, Sprintf_d iv.1, sens, displayName s sens]) := by
  unfold valsSets
  generalize vals.enum = l
  induction l with
  | nil => rfl
  | cons iv l ih =>
    cases hv : iv.2.Val <;>
      simp [List.filterMap_cons, List.filter_cons, entrySet, values.isNumeric, hv, ih]

theorem valsSets_nodup (s : SunnyBoyExporter) (dev sens valid : String) (vals : List values) :
    ((valsSets s dev sens valid vals).map Prod.fst).Nodup := by
  rw [valsSets_keys]
  have hsub : List.Sublist
      ((vals.enum.filter fun iv => iv.2.isNumeric).map fun iv =>
        [dev, valid, Sprintf_d iv.1, sens, displayName s sens])
      (vals.enum.map fun iv => [dev, valid, Sprintf_d iv.1, sens, displayName s sens]) :=
    (List.filter_sublist _).map _
  refine List.Nodup.sublist hsub ?_
  have hmap : (vals.enum.map fun iv => [dev, valid, Sprintf_d iv.1, sens, displayName s sens]) =
      ((vals.enum.map Prod.fst).map fun (i : Nat) =>
        [dev, valid, Sprintf_d i, sens, displayName s sens]) := by
    rw [List.map_map]; rfl
  rw [hmap, List.enum_map_fst]
  refine List.Nodup.map ?_ (List.nodup_range _)
  intro a b hab
  simp only [List.cons.injEq, and_true, true_and] at hab
  exact Sprintf_d_natCast_injective a b hab

theorem valsSets_shape (s : SunnyBoyExporter) (dev sens valid : String) (vals : List values)
    (k : List String) (hk : k ∈ (valsSets s dev sens valid vals).map Prod.fst) :
    ∃ i : Nat, k = [dev, valid, Sprintf_d i, sens, displayName s sens] := by
  rw [valsSets_keys] at hk
  obtain ⟨iv, _, rfl⟩ := List.mem_map.1 hk
  exact ⟨iv.1, rfl⟩

theorem sensresSets_nodup (s : SunnyBoyExporter) (dev sens : String) (sensres : sensorResult)
    (h : sensres.keys.Nodup) : ((sensresSets s dev sens sensres).map Prod.fst).Nodup := by
  unfold sensresSets
  rw [List.map_flatMap]
  refine nodup_flatMap_keyed sensres _ Prod.fst (fun k => k.getD 1 "") ?_ h ?_
  · intro kv _ k hk
    obtain ⟨i, rfl⟩ := valsSets_shape s dev sens kv.1 kv.2 k hk
    rfl
  · intro kv _
    exact valsSets_nodup s dev sens kv.1 kv.2

theorem sensresSets_shape (s : SunnyBoyExporter) (dev sens : String) (sensres : sensorResult)
    (k : List String) (hk : k ∈ (sensresSets s dev sens sensres).map Prod.fst) :
    ∃ (valid : String) (i : Nat), k = [dev, valid, Sprintf_d i, sens, displayName s sens] := by
  unfold sensresSets at hk
  rw [List.map_flatMap, List.mem_flatMap] at hk
  obtain ⟨kv, _, hk⟩ := hk
  obtain ⟨i, rfl⟩ := valsSets_shape s dev sens kv.1 kv.2 k hk
  exact ⟨kv.1, i, rfl⟩

theorem resSets_nodup (s : SunnyBoyExporter) (dev : String) (res : deviceResult)
    (h : res.keys.Nodup) (h2 : ∀ sn ∈ res, sn.2.keys.Nodup) :
    ((resSets s dev res).map Prod.fst).Nodup := by
  unfold resSets
  rw [List.map_flatMap]
  refine nodup_flatMap_keyed res _ Prod.fst (fun k => k.getD 3 "") ?_ h ?_
  · intro kv _ k hk
    obtain ⟨valid, i, rfl⟩ := sensresSets_shape s dev kv.1 kv.2 k hk
    rfl
  · intro kv hkv
    exact sensresSets_nodup s dev kv.1 kv.2 (h2 kv hkv)

theorem resSets_shape (s : SunnyBoyExporter) (dev : String) (res : deviceResult)
    (k : List String) (hk : k ∈ (resSets s dev res).map Prod.fst) :
    ∃ (sens valid : String) (i : Nat),
      k = [dev, valid, Sprintf_d i, sens, displayName s sens] := by
  unfold resSets at hk
  rw [List.map_flatMap, List.mem_flatMap] at hk
  obtain ⟨kv, _, hk⟩ := hk
  obtain ⟨valid, i, rfl⟩ := sensresSets_shape s dev kv.1 kv.2 k hk
  exact ⟨kv.1, valid, i, rfl⟩

theorem resultSets_nodup (s : SunnyBoyExporter) (r : results) (h : r.uniqueKeys) :
    ((resultSets s r).map Prod.fst).Nodup := by
  unfold resultSets
  rw [List.map_flatMap]
  refine nodup_flatMap_keyed r.Result _ Prod.fst (fun k => k.getD 0 "") ?_ h.1 ?_
  · intro kv _ k hk
    obtain ⟨sens, valid, i, rfl⟩ := resSets_shape s kv.1 kv.2 k hk
    rfl
  · intro kv hkv
    exact resSets_nodup s kv.1 kv.2 (h.2 kv hkv).1 (h.2 kv hkv).2

/-! ### As many sets as numeric entries -/

theorem valsSets_length (s : SunnyBoyExporter) (dev sens valid : String) (vals : List values) :
    (valsSets s dev sens valid vals).length = (vals.filter values.isNumeric).length := by
  have h := congrArg List.length (valsSets_keys s dev sens valid vals)
  rw [List.length_map, List.length_map] at h
  rw [h]
  have h2 : (vals.enum.filter fun iv => iv.2.isNumeric).map Prod.snd =
      (vals.enum.map Prod.snd).filter values.isNumeric := by
    rw [List.filter_map]; rfl
  have h3 := congrArg List.length h2
  rw [List.length_map, List.enum_map_snd] at h3
  exact h3

theorem resultSets_length (s : SunnyBoyExporter) (r : results) :
    (resultSets s r).length = numericEntries r := by
  simp only [resultSets, resSets, sensresSets, numericEntries, List.length_flatMap,
    Function.comp_def, valsSets_length]

/-- On a decoded dashboard with unique keys the value gauge ends up holding exactly the
sets of the loops, in order. -/
theorem rangeResult_children (s : SunnyBoyExporter) (r : results) (h : r.uniqueKeys) :
    (rangeResult s r s.gauge).children = resultSets s r := by
  rw [rangeResult_eq, setAll_fresh _ _ (resultSets_nodup s r h)]
  · simp [SunnyBoyExporter.gauge]
  · intro k _
    simp [SunnyBoyExporter.gauge]

theorem setAll_meta (g : GaugeVec) (us : List (List String × float64)) :
    (setAll g us).Name = g.Name ∧ (setAll g us).labelNames = g.labelNames := by
  induction us generalizing g with
  | nil => exact ⟨rfl, rfl⟩
  | cons u us ih =>
    have hstep : setAll g (u :: us) = setAll (g.WithLabelValues_Set u.1 u.2) us := rfl
    rw [hstep]
    exact ih _

theorem rangeResult_Collect (s : SunnyBoyExporter) (r : results) :
    (rangeResult s r s.gauge).Collect = (rangeResult s r s.gauge).children.map valueMetric := by
  have hm := setAll_meta s.gauge (resultSets s r)
  rw [← rangeResult_eq] at hm
  unfold GaugeVec.Collect valueMetric
  rw [hm.1, hm.2]
  rfl

/-! ## One scrape -/

theorem Collect_of_ok (env : Env) (s : SunnyBoyExporter) (r : results) (u : Gauge)
    (hr : dashboard env s = .ok r) (hu : s.up = some u) :
    s.Collect env =
      { s := { s with up := some (u.Set 1) }
        c := (rangeResult s r s.gauge).Collect ++ [{ name := u.Name, labels := [], value := 1 }]
        log := []
        sent := [{ method := "GET", url := s.url ++ "/dyn/getDashValues.json" }]
        panicked := false } := by
  unfold dashboard at hr
  unfold SunnyBoyExporter.Collect NewRequest ReadAll
  cases h1 : env.urlParse (s.url ++ "/dyn/getDashValues.json") with
  | some e => simp [h1] at hr
  | none =>
    simp only [h1] at hr ⊢
    cases h2 : env.Do s.client { method := "GET", url := s.url ++ "/dyn/getDashValues.json" } with
    | error e => simp [h2] at hr
    | ok resp =>
      simp only [h2] at hr ⊢
      cases h3 : resp.Body.err with
      | some e => simp [h3] at hr
      | none =>
        simp only [h3] at hr ⊢
        cases h4 : (env.Unmarshal_results resp.Body.data default).2 with
        | some e => simp [h4] at hr
        | none =>
          simp only [h4, Except.ok.injEq] at hr
          have h5 : env.Unmarshal_results resp.Body.data default = (r, none) := by
            rw [← hr, ← h4]
          simp [h5, Collect.deferred, hu, Gauge.Set, Gauge.Collect]

theorem Collect_of_error (env : Env) (s : SunnyBoyExporter) (e : error) (u : Gauge)
    (hr : dashboard env s = .error e) (hu : s.up = some u) :
    (s.Collect env).s = { s with up := some (u.Set 0) } ∧
      (s.Collect env).c = [{ name := u.Name, labels := [], value := 0 }] ∧
      (s.Collect env).log = [(s.l, "err", e)] ∧
      (s.Collect env).panicked = false := by
  unfold dashboard at hr
  unfold SunnyBoyExporter.Collect NewRequest ReadAll
  cases h1 : env.urlParse (s.url ++ "/dyn/getDashValues.json") with
  | some e1 =>
    simp only [h1, Except.error.injEq] at hr
    simp [Collect.deferred, hu, Gauge.Set, Gauge.Collect, hr]
  | none =>
    simp only [h1] at hr ⊢
    cases h2 : env.Do s.client { method := "GET", url := s.url ++ "/dyn/getDashValues.json" } with
    | error e2 =>
      simp only [h2, Except.error.injEq] at hr
      simp [Collect.deferred, hu, Gauge.Set, Gauge.Collect, hr]
    | ok resp =>
      simp only [h2] at hr ⊢
      cases h3 : resp.Body.err with
      | some e3 =>
        simp only [h3, Except.error.injEq] at hr
        simp [Collect.deferred, hu, Gauge.Set, Gauge.Collect, hr]
      | none =>
        simp only [h3] at hr ⊢
        cases h4 : (env.Unmarshal_results resp.Body.data default).2 with
        | some e4 =>
          simp only [h4, Except.error.injEq] at hr
          have h5 : env.Unmarshal_results resp.Body.data default =
              ((env.Unmarshal_results resp.Body.data default).1, some e4) := by
            rw [← h4]
          rw [h5]
          simp [Collect.deferred, hu, Gauge.Set, Gauge.Collect, hr]
        | none => simp [h4] at hr

theorem Ready_up (s : SunnyBoyExporter) (h : s.Ready) :
    ∃ u : Gauge, s.up = some u ∧ u.Name = "sunny_boy_up" := by
  unfold SunnyBoyExporter.Ready at h
  cases hu : s.up with
  | none => simp [hu] at h
  | some u => exact ⟨u, rfl, by simpa [hu] using h⟩

theorem filter_valueMetric (cs : List (List String × float64)) :
    (cs.map valueMetric).filter (fun m => m.name = "sunny_boy_value") = cs.map valueMetric := by
  rw [List.filter_eq_self]
  intro m hm
  obtain ⟨c, _, rfl⟩ := List.mem_map.1 hm
  simp [valueMetric]

theorem filter_up_valueMetric (cs : List (List String × float64)) :
    (cs.map valueMetric).filter (fun m => m.name = "sunny_boy_up") = [] := by
  rw [List.filter_eq_nil_iff]
  intro m hm
  obtain ⟨c, _, rfl⟩ := List.mem_map.1 hm
  simp [valueMetric]

/-- A scrape that fetched and decoded `r` sends the children of the value gauge, then
`sunny_boy_up` at 1. -/
theorem Collect_ok_samples (env : Env) (s : SunnyBoyExporter) (r : results)
    (hready : s.Ready) (hr : dashboard env s = .ok r) :
    (s.Collect env).valueSamples = (rangeResult s r s.gauge).children.map valueMetric ∧
      (s.Collect env).upSamples = [{ name := "sunny_boy_up", labels := [], value := 1 }] ∧
      (s.Collect env).log = [] ∧ (s.Collect env).panicked = false := by
  obtain ⟨u, hu, hn⟩ := Ready_up s hready
  rw [Collect_of_ok env s r u hr hu, rangeResult_Collect]
  simp only [Collected.valueSamples, Collected.upSamples, List.filter_append,
    filter_valueMetric, filter_up_valueMetric, hn]
  simp

/-- A scrape that failed sends `sunny_boy_up` at 0 and nothing else. -/
theorem Collect_error_samples (env : Env) (s : SunnyBoyExporter) (e : error)
    (hready : s.Ready) (hr : dashboard env s = .error e) :
    (s.Collect env).valueSamples = [] ∧
      (s.Collect env).upSamples = [{ name := "sunny_boy_up", labels := [], value := 0 }] ∧
      (s.Collect env).c = [{ name := "sunny_boy_up", labels := [], value := 0 }] ∧
      (s.Collect env).log = [(s.l, "err", e)] ∧ (s.Collect env).panicked = false := by
  obtain ⟨u, hu, hn⟩ := Ready_up s hready
  obtain ⟨_, hc, hl, hp⟩ := Collect_of_error env s e u hr hu
  simp only [Collected.valueSamples, Collected.upSamples, hc, hl, hp, hn]
  simp

theorem resultSets_shape (s : SunnyBoyExporter) (r : results)
    (k : List String) (hk : k ∈ (resultSets s r).map Prod.fst) :
    ∃ (dev sens valid : String) (i : Nat),
      k = [dev, valid, Sprintf_d i, sens, displayName s sens] := by
  unfold resultSets at hk
  rw [List.map_flatMap, List.mem_flatMap] at hk
  obtain ⟨kv, _, hk⟩ := hk
  obtain ⟨sens, valid, i, rfl⟩ := resSets_shape s kv.1 kv.2 k hk
  exact ⟨kv.1, sens, valid, i, rfl⟩

theorem resultSets_mem (s : SunnyBoyExporter) (r : results) (dev sens valid : String)
    (res : deviceResult) (sensres : sensorResult) (vals : List values) (i : Nat) (v : values)
    (f : float64) (hd : (dev, res) ∈ r.Result) (hs : (sens, sensres) ∈ res)
    (hv : (valid, vals) ∈ sensres) (hi : vals[i]? = some v) (hf : v.Val = Iface.float64 f) :
    ([dev, valid, Sprintf_d i, sens, displayName s sens], f) ∈ resultSets s r := by
  unfold resultSets
  rw [List.mem_flatMap]
  refine ⟨(dev, res), hd, ?_⟩
  unfold resSets
  rw [List.mem_flatMap]
  refine ⟨(sens, sensres), hs, ?_⟩
  unfold sensresSets
  rw [List.mem_flatMap]
  refine ⟨(valid, vals), hv, ?_⟩
  unfold valsSets
  rw [List.mem_filterMap]
  refine ⟨(i, v), List.mk_mem_enum_iff_getElem?.2 hi, ?_⟩
  simp [entrySet, hf]

theorem resultSets_eq_nil (s : SunnyBoyExporter) (r : results) (h : numericEntries r = 0) :
    resultSets s r = [] := by
  rw [← resultSets_length s r] at h
  exact List.length_eq_zero.1 h

theorem zip_labelNames_injective (a b : List String)
    (ha : ∃ x1 x2 x3 x4 x5 : String, a = [x1, x2, x3, x4, x5])
    (hb : ∃ x1 x2 x3 x4 x5 : String, b = [x1, x2, x3, x4, x5])
    (h : ["device", "sensor", "result", "id", "name"].zip a =
      ["device", "sensor", "result", "id", "name"].zip b) : a = b := by
  obtain ⟨a1, a2, a3, a4, a5, rfl⟩ := ha
  obtain ⟨b1, b2, b3, b4, b5, rfl⟩ := hb
  simp only [List.zip_cons_cons, List.zip_nil_right, List.cons.injEq, Prod.mk.injEq, true_and,
    and_true] at h
  obtain ⟨h1, h2, h3, h4, h5⟩ := h
  subst h1 h2 h3 h4 h5
  rfl

theorem valueMetric_labels_nodup (s : SunnyBoyExporter) (r : results) (h : r.uniqueKeys) :
    (((resultSets s r).map valueMetric).map Metric.labels).Nodup := by
  have hmap : ((resultSets s r).map valueMetric).map Metric.labels =
      ((resultSets s r).map Prod.fst).map
        (fun k => ["device", "sensor", "result", "id", "name"].zip k) := by
    rw [List.map_map, List.map_map]; rfl
  rw [hmap]
  refine List.Nodup.map_on ?_ (resultSets_nodup s r h)
  intro a ha b hb hab
  obtain ⟨d1, s1, v1, i1, rfl⟩ := resultSets_shape s r a ha
  obtain ⟨d2, s2, v2, i2, rfl⟩ := resultSets_shape s r b hb
  exact zip_labelNames_injective _ _ ⟨_, _, _, _, _, rfl⟩ ⟨_, _, _, _, _, rfl⟩ hab

theorem dashboard_error_of_stage (env : Env) (s : SunnyBoyExporter) (e : error)
    (h : env.urlParse (s.url ++ "/dyn/getDashValues.json") = some e ∨
      (env.urlParse (s.url ++ "/dyn/getDashValues.json") = none ∧
        env.Do s.client { method := "GET", url := s.url ++ "/dyn/getDashValues.json" } =
          .error e) ∨
      (∃ resp, env.urlParse (s.url ++ "/dyn/getDashValues.json") = none ∧
        env.Do s.client { method := "GET", url := s.url ++ "/dyn/getDashValues.json" } =
          .ok resp ∧ resp.Body.err = some e) ∨
      (∃ resp, env.urlParse (s.url ++ "/dyn/getDashValues.json") = none ∧
        env.Do s.client { method := "GET", url := s.url ++ "/dyn/getDashValues.json" } =
          .ok resp ∧ resp.Body.err = none ∧
        (env.Unmarshal_results resp.Body.data default).2 = some e)) :
    dashboard env s = .error e := by
  unfold dashboard
  rcases h with h | ⟨h1, h2⟩ | ⟨resp, h1, h2, h3⟩ | ⟨resp, h1, h2, h3, h4⟩
  · simp [h]
  · simp [h1, h2]
  · simp [h1, h2, h3]
  · simp [h1, h2, h3, h4]

/-! ## What `Collect` leaves alone -/

theorem deferred_frame (s : SunnyBoyExporter) (err : Option error) (c : List Metric)
    (sent : List Request) :
    (Collect.deferred s err c sent).s = { s with up := (Collect.deferred s err c sent).s.up } := by
  unfold Collect.deferred
  cases s.up with
  | none => rfl
  | some u => cases err <;> rfl

theorem Collect_frame_eq (env : Env) (s : SunnyBoyExporter) :
    (s.Collect env).s = { s with up := (s.Collect env).s.up } := by
  unfold SunnyBoyExporter.Collect
  split
  · exact deferred_frame _ _ _ _
  · split
    · exact deferred_frame _ _ _ _
    · split
      · exact deferred_frame _ _ _ _
      · split
        · exact deferred_frame _ _ _ _
        · exact deferred_frame _ _ _ _

theorem Collect_fields (env : Env) (s : SunnyBoyExporter) :
    (s.Collect env).s.url = s.url ∧ (s.Collect env).s.insecure = s.insecure ∧
      (s.Collect env).s.l = s.l ∧ (s.Collect env).s.locale = s.locale ∧
      (s.Collect env).s.metadatas = s.metadatas ∧ (s.Collect env).s.value = s.value := by
  have h := Collect_frame_eq env s
  refine ⟨?_, ?_, ?_, ?_, ?_, ?_⟩ <;> (rw [h])

theorem Collect_Ready (env : Env) (s : SunnyBoyExporter) (h : s.Ready) :
    (s.Collect env).s.Ready := by
  obtain ⟨u, hu, hn⟩ := Ready_up s h
  cases hr : dashboard env s with
  | ok r =>
    rw [Collect_of_ok env s r u hr hu]
    simpa [SunnyBoyExporter.Ready, Gauge.Set] using hn
  | error e =>
    rw [(Collect_of_error env s e u hr hu).1]
    simpa [SunnyBoyExporter.Ready, Gauge.Set] using hn

theorem rangeResult_congr (s1 s2 : SunnyBoyExporter) (r : results) (g : GaugeVec)
    (hloc : s1.locale = s2.locale) (hmd : s1.metadatas = s2.metadatas) :
    rangeResult s1 r g = rangeResult s2 r g := by
  unfold rangeResult rangeRes rangeSensres rangeVals
  rw [hloc, hmd]

theorem dashboard_congr (env : Env) (s1 s2 : SunnyBoyExporter) (hurl : s1.url = s2.url) :
    dashboard env s1 = dashboard env s2 := by
  unfold dashboard SunnyBoyExporter.client
  rw [hurl]

theorem Collect_c_congr (env : Env) (s1 s2 : SunnyBoyExporter) (hurl : s1.url = s2.url)
    (hloc : s1.locale = s2.locale) (hmd : s1.metadatas = s2.metadatas)
    (h1 : s1.Ready) (h2 : s2.Ready) :
    (s1.Collect env).c = (s2.Collect env).c ∧
      (s1.Collect env).s.up.map Gauge.val = (s2.Collect env).s.up.map Gauge.val := by
  obtain ⟨u1, hu1, hn1⟩ := Ready_up s1 h1
  obtain ⟨u2, hu2, hn2⟩ := Ready_up s2 h2
  have hd := dashboard_congr env s1 s2 hurl
  cases hr : dashboard env s1 with
  | ok r =>
    rw [Collect_of_ok env s1 r u1 hr hu1, Collect_of_ok env s2 r u2 (hd ▸ hr) hu2]
    have hg : rangeResult s1 r s1.gauge = rangeResult s2 r s2.gauge :=
      rangeResult_congr s1 s2 r _ hloc hmd
    simp [hg, hn1, hn2, Gauge.Set]
  | error e =>
    obtain ⟨a1, a2, _, _⟩ := Collect_of_error env s1 e u1 hr hu1
    obtain ⟨b1, b2, _, _⟩ := Collect_of_error env s2 e u2 (hd ▸ hr) hu2
    rw [a1, a2, b1, b2]
    simp [hn1, hn2, Gauge.Set]

/-! ## Status codes -/

theorem Collect_withStatus (env : Env) (code : Nat) (s : SunnyBoyExporter) :
    s.Collect (env.withStatus code) = s.Collect env := by
  unfold SunnyBoyExporter.Collect NewRequest Env.withStatus ReadAll
  cases env.urlParse (s.url ++ "/dyn/getDashValues.json") with
  | some e => rfl
  | none =>
    simp only
    cases env.Do s.client { method := "GET", url := s.url ++ "/dyn/getDashValues.json" } with
    | error e => rfl
    | ok resp => rfl

theorem initLocale_withStatus (env : Env) (code : Nat) (s : SunnyBoyExporter) :
    s.initLocale (env.withStatus code) = s.initLocale env := by
  unfold SunnyBoyExporter.initLocale NewRequest Env.withStatus ReadAll
  cases env.urlParse (s.url ++ "/data/l10n/en-US.json") with
  | some e => rfl
  | none =>
    simp only
    cases env.Do s.client { method := "GET", url := s.url ++ "/data/l10n/en-US.json" } with
    | error e => rfl
    | ok resp => rfl

theorem initMedatatas_withStatus (env : Env) (code : Nat) (s : SunnyBoyExporter) :
    s.initMedatatas (env.withStatus code) = s.initMedatatas env := by
  unfold SunnyBoyExporter.initMedatatas NewRequest Env.withStatus ReadAll
  cases env.urlParse (s.url ++ "/data/ObjectMetadata_Istl.json") with
  | some e => rfl
  | none =>
    simp only
    cases env.Do s.client { method := "GET", url := s.url ++ "/data/ObjectMetadata_Istl.json" } with
    | error e => rfl
    | ok resp => rfl

theorem NewExporter_withStatus (env : Env) (code : Nat) (o : SunnyBoyOpts) (l : Logger) :
    NewExporter (env.withStatus code) o l = NewExporter env o l := by
  unfold NewExporter SunnyBoyExporter.init
  simp only [initLocale_withStatus, initMedatatas_withStatus]

/-! ## Start-up -/

theorem initLocale_spec (env : Env) (s : SunnyBoyExporter) :
    (s.initLocale env).err.isSome =
        loadFails env s.client (s.url ++ "/data/l10n/en-US.json")
          (fun b => (env.Unmarshal_locale b s.locale).2) ∧
      (∀ req ∈ (s.initLocale env).sent, req.url = s.url ++ "/data/l10n/en-US.json") ∧
      (s.initLocale env).s.url = s.url ∧ (s.initLocale env).s.metadatas = s.metadatas ∧
      (s.initLocale env).s.insecure = s.insecure := by
  unfold SunnyBoyExporter.initLocale NewRequest ReadAll loadFails
  cases h1 : env.urlParse (s.url ++ "/data/l10n/en-US.json") with
  | some e => simp
  | none =>
    simp only
    cases h2 : env.Do s.client { method := "GET", url := s.url ++ "/data/l10n/en-US.json" } with
    | error e => simp
    | ok resp =>
      simp only
      cases h3 : resp.Body.err with
      | some e => simp
      | none =>
        simp only
        rcases h4 : env.Unmarshal_locale resp.Body.data s.locale with ⟨m, _ | e⟩ <;> simp

theorem initMedatatas_spec (env : Env) (s : SunnyBoyExporter) :
    (s.initMedatatas env).err.isSome =
        loadFails env s.client (s.url ++ "/data/ObjectMetadata_Istl.json")
          (fun b => (env.Unmarshal_metadatas b s.metadatas).2) ∧
      (s.initMedatatas env).s.insecure = s.insecure := by
  unfold SunnyBoyExporter.initMedatatas NewRequest ReadAll loadFails
  cases h1 : env.urlParse (s.url ++ "/data/ObjectMetadata_Istl.json") with
  | some e => simp
  | none =>
    simp only
    cases h2 : env.Do s.client
        { method := "GET", url := s.url ++ "/data/ObjectMetadata_Istl.json" } with
    | error e => simp
    | ok resp =>
      simp only
      cases h3 : resp.Body.err with
      | some e => simp
      | none =>
        simp only
        rcases h4 : env.Unmarshal_metadatas resp.Body.data s.metadatas with ⟨m, _ | e⟩ <;> simp

theorem append_path_ne (base : String) :
    base ++ "/data/l10n/en-US.json" ≠ base ++ "/data/ObjectMetadata_Istl.json" := by
  intro h
  have h2 := congrArg String.data h
  rw [String.data_append, String.data_append] at h2
  have h3 := List.append_cancel_left h2
  exact absurd h3 (by decide)

/-- What `NewExporter` returns, in terms of the two loads. -/
theorem NewExporter_spec (env : Env) (o : SunnyBoyOpts) (l : Logger) :
    (NewExporter env o l).err.isSome =
        (loadFails env (NewExporter env o l).s.client (o.URL ++ "/data/l10n/en-US.json")
            (fun b => (env.Unmarshal_locale b []).2) ||
          loadFails env (NewExporter env o l).s.client
            (o.URL ++ "/data/ObjectMetadata_Istl.json")
            (fun b => (env.Unmarshal_metadatas b []).2)) ∧
      (loadFails env (NewExporter env o l).s.client (o.URL ++ "/data/l10n/en-US.json")
          (fun b => (env.Unmarshal_locale b []).2) = true →
        ∀ req ∈ (NewExporter env o l).sent,
          req.url ≠ o.URL ++ "/data/ObjectMetadata_Istl.json") ∧
      ((NewExporter env o l).err = none → (NewExporter env o l).s.Ready) ∧
      (NewExporter env o l).s.insecure = o.SkipVerifyCert := by
  have hL := initLocale_spec env
    { url := o.URL, insecure := o.SkipVerifyCert, l := l, locale := [], metadatas := [],
      value := none, up := none }
  have hM := initMedatatas_spec env
    (SunnyBoyExporter.initLocale env
      { url := o.URL, insecure := o.SkipVerifyCert, l := l, locale := [], metadatas := [],
        value := none, up := none }).s
  obtain ⟨hL1, hL2, hL3, hL4, hL5⟩ := hL
  obtain ⟨hM1, hM2⟩ := hM
  simp only [SunnyBoyExporter.client] at hL1 hM1 ⊢
  rw [hL3, hL4] at hM1
  rw [← hL1, ← hM1]
  unfold NewExporter SunnyBoyExporter.init
  simp only
  cases h1 : (SunnyBoyExporter.initLocale env
      { url := o.URL, insecure := o.SkipVerifyCert, l := l, locale := [], metadatas := [],
        value := none, up := none }).err with
  | some e =>
    simp only [Option.isSome_some, Bool.true_or, true_and, forall_true_left]
    refine ⟨?_, by simp, hL5⟩
    intro req hreq
    rw [hL2 req hreq]
    exact append_path_ne o.URL
  | none =>
    simp only [Option.isSome_none, Bool.false_or]
    cases h2 : (SunnyBoyExporter.initMedatatas env
        (SunnyBoyExporter.initLocale env
          { url := o.URL, insecure := o.SkipVerifyCert, l := l, locale := [], metadatas := [],
            value := none, up := none }).s).err with
    | some e =>
      simp only [Option.isSome_some, true_and]
      exact ⟨by simp, by simp, hM2.trans hL5⟩
    | none =>
      simp only [Option.isSome_none, true_and]
      exact ⟨by simp, by intro _; rfl, hM2.trans hL5⟩

/-! ## The claims -/

/-- C1: on the round-trip example of the specification (device `dev1`, sensor
`6100_40263F00`, result kind `1`, one value 235.4, tag 7021 named `Voltage`) `Collect`
sends one value sample and then `sunny_boy_up`; the sample carries the result kind under
the label `sensor`, the position under `result` and the sensor key under `id`, so the
sample the specification expects is not among the metrics sent. -/
theorem Collect_roundtrip_labels :
    (readyExporter.Collect (device voltageText)).c =
      [{ name := "sunny_boy_value"
         labels := [("device", "dev1"), ("sensor", "1"), ("result", "0"),
           ("id", "6100_40263F00"), ("name", "Voltage")]
         value := 235.4 },
       { name := "sunny_boy_up", labels := [], value := 1 }] ∧
    ¬ ({ name := "sunny_boy_value"
         labels := [("device", "dev1"), ("sensor", "6100_40263F00"), ("result", "1"),
           ("id", "0"), ("name", "Voltage")]
         value := 235.4 } : Metric) ∈ (readyExporter.Collect (device voltageText)).c := by
  have h : (readyExporter.Collect (device voltageText)).c =
      [{ name := "sunny_boy_value"
         labels := [("device", "dev1"), ("sensor", "1"), ("result", "0"),
           ("id", "6100_40263F00"), ("name", "Voltage")]
         value := 235.4 },
       { name := "sunny_boy_up", labels := [], value := 1 }] := rfl
  refine ⟨h, ?_⟩
  rw [h]
  simp

/-- C2: when the dashboard fetches and decodes to `r` (a Go map holds each key once),
`Collect` sends as many `sunny_boy_value` samples as `r` has numeric value entries, and
no two of these samples carry the same labels. -/
theorem Collect_sample_count (env : Env) (s : SunnyBoyExporter) (r : results)
    (hready : s.Ready) (hr : dashboard env s = .ok r) (hu : r.uniqueKeys) :
    (s.Collect env).valueSamples.length = numericEntries r ∧
      ((s.Collect env).valueSamples.map Metric.labels).Nodup := by
  have h := (Collect_ok_samples env s r hready hr).1
  rw [h, rangeResult_children s r hu]
  exact ⟨by rw [List.length_map, resultSets_length], valueMetric_labels_nodup s r hu⟩

theorem Collect_sample_count_witness :
    readyExporter.Ready ∧
      dashboard (device voltageText) readyExporter = .ok voltageResults ∧
      voltageResults.uniqueKeys ∧
      ((readyExporter.Collect (device voltageText)).valueSamples.length =
          numericEntries voltageResults ∧
        ((readyExporter.Collect (device voltageText)).valueSamples.map Metric.labels).Nodup) :=
  ⟨rfl, rfl, by decide,
    Collect_sample_count (device voltageText) readyExporter voltageResults rfl rfl (by decide)⟩

/-- C3: every `Collect` of an initialised exporter sends `sunny_boy_up` exactly once, at
1 when request construction, fetch, body read and decode all succeeded and at 0 otherwise;
a dashboard that decodes but has no numeric value gives no value sample. -/
theorem Collect_up_once (env : Env) (s : SunnyBoyExporter) (hready : s.Ready) :
    (s.Collect env).upSamples =
        [{ name := "sunny_boy_up"
           labels := []
           value := match dashboard env s with
             | .ok _ => 1
             | .error _ => 0 }] ∧
      ∀ r, dashboard env s = .ok r → numericEntries r = 0 →
        (s.Collect env).valueSamples = [] := by
  constructor
  · cases hr : dashboard env s with
    | ok r => exact (Collect_ok_samples env s r hready hr).2.1
    | error e => exact (Collect_error_samples env s e hready hr).2.1
  · intro r hr h0
    rw [(Collect_ok_samples env s r hready hr).1, rangeResult_eq, resultSets_eq_nil s r h0]
    rfl

theorem Collect_up_once_witness :
    readyExporter.Ready ∧
      dashboard (device naText) readyExporter = .ok naResults ∧
      numericEntries naResults = 0 ∧
      (readyExporter.Collect (device naText)).upSamples =
        [{ name := "sunny_boy_up", labels := [], value := 1 }] ∧
      (readyExporter.Collect (device naText)).valueSamples = [] :=
  ⟨rfl, rfl, rfl, (Collect_up_once (device naText) readyExporter rfl).1,
    (Collect_up_once (device naText) readyExporter rfl).2 naResults rfl rfl⟩

/-- C4: when request construction, the fetch, the body read or the decode of the dashboard
fails with `e`, `Collect` of an initialised exporter sends no value sample, sends
`sunny_boy_up` at 0 and nothing else, logs `e` once and returns without a panic. -/
theorem Collect_failure (env : Env) (s : SunnyBoyExporter) (e : error) (hready : s.Ready)
    (h : env.urlParse (s.url ++ "/dyn/getDashValues.json") = some e ∨
      (env.urlParse (s.url ++ "/dyn/getDashValues.json") = none ∧
        env.Do s.client { method := "GET", url := s.url ++ "/dyn/getDashValues.json" } =
          .error e) ∨
      (∃ resp, env.urlParse (s.url ++ "/dyn/getDashValues.json") = none ∧
        env.Do s.client { method := "GET", url := s.url ++ "/dyn/getDashValues.json" } =
          .ok resp ∧ resp.Body.err = some e) ∨
      (∃ resp, env.urlParse (s.url ++ "/dyn/getDashValues.json") = none ∧
        env.Do s.client { method := "GET", url := s.url ++ "/dyn/getDashValues.json" } =
          .ok resp ∧ resp.Body.err = none ∧
        (env.Unmarshal_results resp.Body.data default).2 = some e)) :
    (s.Collect env).valueSamples = [] ∧
      (s.Collect env).c = [{ name := "sunny_boy_up", labels := [], value := 0 }] ∧
      (s.Collect env).s.up.map Gauge.val = some 0 ∧
      (s.Collect env).log = [(s.l, "err", e)] ∧
      (s.Collect env).panicked = false := by
  have hr := dashboard_error_of_stage env s e h
  obtain ⟨h1, _, h3, h4, h5⟩ := Collect_error_samples env s e hready hr
  obtain ⟨u, hu, _⟩ := Ready_up s hready
  refine ⟨h1, h3, ?_, h4, h5⟩
  rw [(Collect_of_error env s e u hr hu).1]
  rfl

theorem Collect_failure_witness :
    readyExporter.Ready ∧
      ((readyExporter.Collect deviceDown).valueSamples = [] ∧
        (readyExporter.Collect deviceDown).c =
          [{ name := "sunny_boy_up", labels := [], value := 0 }] ∧
        (readyExporter.Collect deviceDown).s.up.map Gauge.val = some 0 ∧
        (readyExporter.Collect deviceDown).log = [("logger", "err", "connection refused")] ∧
        (readyExporter.Collect deviceDown).panicked = false) :=
  ⟨rfl, Collect_failure deviceDown readyExporter "connection refused" rfl
    (Or.inr (Or.inl ⟨rfl, rfl⟩))⟩

/-- C5, as stated, fails: the metadata table has no entry for the sensor, yet the sample
is named `Zero`, because the zero tag id of the missing record is looked up in the locale
table, which names tag 0. -/
theorem name_label_of_missing_metadata :
    zeroTagExporter.metadatas.lookup "6100_40263F00" = none ∧
      (zeroTagExporter.Collect (device voltageText)).valueSamples.map
          (fun m => m.labels.lookup "name") = [some "Zero"] ∧
      (zeroTagExporter.Collect (device voltageText)).valueSamples.map
          (fun m => m.labels.lookup "name") ≠ [some ""] := by
  have h : (zeroTagExporter.Collect (device voltageText)).valueSamples.map
      (fun m => m.labels.lookup "name") = [some "Zero"] := rfl
  refine ⟨rfl, h, ?_⟩
  rw [h]
  decide

/-- C5, amended: for a numeric value entry of sensor `sens` at position `i`, when the
locale table has no entry for the decimal tag id resolved for `sens` (the tag id of its
metadata record, or 0 when the metadata table has no record for it), a sample with that
value is sent whose `name` label is the empty string; its label values are the device,
the sensor, the result kind, the position and the empty name. -/
theorem name_label_empty_without_locale (env : Env) (s : SunnyBoyExporter) (r : results)
    (hready : s.Ready) (hr : dashboard env s = .ok r) (hu : r.uniqueKeys)
    (dev sens valid : String) (res : deviceResult) (sensres : sensorResult)
    (vals : List values) (i : Nat) (v : values) (f : float64)
    (hd : (dev, res) ∈ r.Result) (hs : (sens, sensres) ∈ res) (hv : (valid, vals) ∈ sensres)
    (hi : vals[i]? = some v) (hf : v.Val = Iface.float64 f)
    (hloc : s.locale.lookup (Sprintf_d (s.metadatas.index sens).TagIdEvtMsg) = none) :
    ∃ m ∈ (s.Collect env).valueSamples,
      m.value = f ∧ m.labels.lookup "name" = some "" ∧
        (m.labels.map Prod.snd).Perm [dev, sens, valid, Sprintf_d i, ""] := by
  have hname : displayName s sens = "" := by
    unfold displayName
    show ((s.locale.lookup (Sprintf_d (s.metadatas.index sens).TagIdEvtMsg)).getD default) = ""
    rw [hloc]
    rfl
  have hmem := resultSets_mem s r dev sens valid res sensres vals i v f hd hs hv hi hf
  rw [hname] at hmem
  refine ⟨valueMetric ([dev, valid, Sprintf_d i, sens, ""], f), ?_, rfl, ?_, ?_⟩
  · rw [(Collect_ok_samples env s r hready hr).1, rangeResult_children s r hu]
    exact List.mem_map_of_mem _ hmem
  · simp [valueMetric, List.lookup]
  · show List.Perm [dev, valid, Sprintf_d i, sens, ""] [dev, sens, valid, Sprintf_d i, ""]
    have hswap : List.Perm ([valid, Sprintf_d i] ++ [sens]) ([sens] ++ [valid, Sprintf_d i]) :=
      List.perm_append_comm
    exact (hswap.append_right [""]).cons dev

theorem name_label_empty_without_locale_witness :
    noMetadataExporter.Ready ∧
      dashboard (device voltageText) noMetadataExporter = .ok voltageResults ∧
      voltageResults.uniqueKeys ∧
      noMetadataExporter.locale.lookup
        (Sprintf_d (noMetadataExporter.metadatas.index "6100_40263F00").TagIdEvtMsg) = none ∧
      ∃ m ∈ (noMetadataExporter.Collect (device voltageText)).valueSamples,
        m.value = 235.4 ∧ m.labels.lookup "name" = some "" ∧
          (m.labels.map Prod.snd).Perm ["dev1", "6100_40263F00", "1", Sprintf_d (0 : Nat), ""] :=
  ⟨rfl, rfl, by decide, rfl,
    name_label_empty_without_locale (device voltageText) noMetadataExporter voltageResults
      rfl rfl (by decide) "dev1" "6100_40263F00" "1"
      [("6100_40263F00", [("1", [⟨Iface.float64 235.4⟩])])] [("1", [⟨Iface.float64 235.4⟩])]
      [⟨Iface.float64 235.4⟩] 0 ⟨Iface.float64 235.4⟩ 235.4
      (List.mem_singleton.2 rfl) (List.mem_singleton.2 rfl) (List.mem_singleton.2 rfl)
      rfl rfl rfl⟩

/-- C6: `NewExporter` returns an error exactly when the load of the locale table or the
load of the metadata table fails (request construction, fetch, body read or decode); when
the locale load fails no request for the metadata table is sent; and on an error `main`
exits with status 1 without registering the collector or starting the listener. -/
theorem NewExporter_error (env : Env) (o : SunnyBoyOpts) (l : Logger)
    (listenAddress : String) :
    (NewExporter env o l).err.isSome =
        (loadFails env (NewExporter env o l).s.client (o.URL ++ "/data/l10n/en-US.json")
            (fun b => (env.Unmarshal_locale b []).2) ||
          loadFails env (NewExporter env o l).s.client
            (o.URL ++ "/data/ObjectMetadata_Istl.json")
            (fun b => (env.Unmarshal_metadatas b []).2)) ∧
      (loadFails env (NewExporter env o l).s.client (o.URL ++ "/data/l10n/en-US.json")
          (fun b => (env.Unmarshal_locale b []).2) = true →
        ∀ req ∈ (NewExporter env o l).sent,
          req.url ≠ o.URL ++ "/data/ObjectMetadata_Istl.json") ∧
      ((NewExporter env o l).err.isSome = true →
        (main env listenAddress o l).exit = some 1 ∧
          (main env listenAddress o l).registered = none ∧
          (main env listenAddress o l).listening = none) := by
  obtain ⟨h1, h2, _, _⟩ := NewExporter_spec env o l
  refine ⟨h1, h2, ?_⟩
  intro herr
  cases he : (NewExporter env o l).err with
  | none => simp [he] at herr
  | some e => simp [main, he]

theorem NewExporter_error_witness :
    loadFails deviceDown
        (NewExporter deviceDown { SkipVerifyCert := true, URL := "https://sunnyboy" }
          "logger").s.client
        ("https://sunnyboy" ++ "/data/l10n/en-US.json")
        (fun b => (deviceDown.Unmarshal_locale b []).2) = true ∧
      (NewExporter deviceDown { SkipVerifyCert := true, URL := "https://sunnyboy" }
        "logger").err.isSome = true ∧
      (∀ req ∈ (NewExporter deviceDown { SkipVerifyCert := true, URL := "https://sunnyboy" }
          "logger").sent,
        req.url ≠ "https://sunnyboy" ++ "/data/ObjectMetadata_Istl.json") ∧
      ((main deviceDown ":9725" { SkipVerifyCert := true, URL := "https://sunnyboy" }
          "logger").exit = some 1 ∧
        (main deviceDown ":9725" { SkipVerifyCert := true, URL := "https://sunnyboy" }
          "logger").registered = none ∧
        (main deviceDown ":9725" { SkipVerifyCert := true, URL := "https://sunnyboy" }
          "logger").listening = none) :=
  ⟨rfl, rfl,
    (NewExporter_error deviceDown { SkipVerifyCert := true, URL := "https://sunnyboy" }
      "logger" ":9725").2.1 rfl,
    (NewExporter_error deviceDown { SkipVerifyCert := true, URL := "https://sunnyboy" }
      "logger" ":9725").2.2 rfl⟩

/-- C7: with `SkipVerifyCert` false the exporter stores `insecure = false`, and the
transport built by `client` still skips certificate verification. -/
theorem client_skips_verification_when_disabled :
    (NewExporter (device voltageText) { SkipVerifyCert := false, URL := "https://sunnyboy" }
        "logger").err = none ∧
      (NewExporter (device voltageText) { SkipVerifyCert := false, URL := "https://sunnyboy" }
        "logger").s.insecure = false ∧
      (NewExporter (device voltageText) { SkipVerifyCert := false, URL := "https://sunnyboy" }
        "logger").s.client.Transport.TLSClientConfig.InsecureSkipVerify = true :=
  ⟨rfl, rfl, rfl⟩

/-- C8: two initialised exporters for the same device with the same locale and metadata
tables send the same metrics and end with the same `sunny_boy_up` value on the same
response, whatever their gauges held before; so a scrape after any earlier scrape sends
what it would have sent without it. -/
theorem Collect_independent_of_history (env : Env) (s1 s2 : SunnyBoyExporter)
    (hurl : s1.url = s2.url) (hloc : s1.locale = s2.locale)
    (hmd : s1.metadatas = s2.metadatas) (h1 : s1.Ready) (h2 : s2.Ready) :
    (s1.Collect env).c = (s2.Collect env).c ∧
      (s1.Collect env).s.up.map Gauge.val = (s2.Collect env).s.up.map Gauge.val ∧
      ∀ env0 : Env, ((s1.Collect env0).s.Collect env).c = (s1.Collect env).c := by
  obtain ⟨hc, hv⟩ := Collect_c_congr env s1 s2 hurl hloc hmd h1 h2
  refine ⟨hc, hv, ?_⟩
  intro env0
  obtain ⟨f1, _, _, f4, f5, _⟩ := Collect_fields env0 s1
  exact (Collect_c_congr env (s1.Collect env0).s s1 f1 f4 f5 (Collect_Ready env0 s1 h1) h1).1

theorem Collect_independent_of_history_witness :
    readyExporter.url = (readyExporter.Collect (device voltageText)).s.url ∧
      readyExporter.Ready ∧ (readyExporter.Collect (device voltageText)).s.Ready ∧
      readyExporter.up ≠ (readyExporter.Collect (device voltageText)).s.up ∧
      ((readyExporter.Collect deviceDown).c =
          ((readyExporter.Collect (device voltageText)).s.Collect deviceDown).c ∧
        (readyExporter.Collect deviceDown).s.up.map Gauge.val =
          ((readyExporter.Collect (device voltageText)).s.Collect deviceDown).s.up.map
            Gauge.val ∧
        ∀ env0 : Env,
          ((readyExporter.Collect env0).s.Collect deviceDown).c =
            (readyExporter.Collect deviceDown).c) :=
  ⟨rfl, rfl, rfl, by decide,
    Collect_independent_of_history deviceDown readyExporter
      (readyExporter.Collect (device voltageText)).s rfl rfl rfl rfl rfl⟩

/-- C9: `Collect` leaves the locale table and the metadata table as they were, whatever
the device answers and whichever keys are looked up; of the exporter only the `up` gauge
changes. -/
theorem Collect_frame (env : Env) (s : SunnyBoyExporter) :
    (s.Collect env).s.locale = s.locale ∧ (s.Collect env).s.metadatas = s.metadatas ∧
      (s.Collect env).s = { s with up := (s.Collect env).s.up } := by
  obtain ⟨_, _, _, h4, h5, _⟩ := Collect_fields env s
  exact ⟨h4, h5, Collect_frame_eq env s⟩

/-- C10: the status code of a response is not looked at: whatever two status codes the
responses carry, `Collect` and `NewExporter` (the locale and metadata loads) do the same. -/
theorem status_code_ignored (env : Env) (a b : Nat) (s : SunnyBoyExporter)
    (o : SunnyBoyOpts) (l : Logger) :
    s.Collect (env.withStatus a) = s.Collect (env.withStatus b) ∧
      s.initLocale (env.withStatus a) = s.initLocale (env.withStatus b) ∧
      s.initMedatatas (env.withStatus a) = s.initMedatatas (env.withStatus b) ∧
      NewExporter (env.withStatus a) o l = NewExporter (env.withStatus b) o l := by
  refine ⟨?_, ?_, ?_, ?_⟩
  · rw [Collect_withStatus, Collect_withStatus]
  · rw [initLocale_withStatus, initLocale_withStatus]
  · rw [initMedatatas_withStatus, initMedatatas_withStatus]
  · rw [NewExporter_withStatus, NewExporter_withStatus]

end SunnyBoy
